import Mathlib

/-!
Verification of the connection scheduler and timing/stats core of
`ssh_stress.py` (class `SSHstress`), as a shallow embedding in Lean 4.

Modelling conventions:
* Python float durations are modelled as exact rationals (`ℚ`); the spec's
  data model speaks of abstract non-negative durations, and none of the
  claims under scrutiny concern IEEE-754 rounding.
* `float('inf')`, used by `_calculate_stats` as the initial value of the
  running minima, is modelled by the dedicated type `PyFloat` with an
  explicit `inf` constructor, so that the "+infinity sentinel" is
  observable and not silently coerced.
* Python dicts keyed by connection id are modelled as association lists
  `List (Nat × ConnData)` preserving insertion order (Python dicts are
  insertion ordered).
* The two outcome-dict shapes constructed by `_sftp` / `_ssh` (the
  success shape with `auth_time`/`conn_time` floats, and the failure
  shape with both set to `None`) are the two constructors of `ConnData`.
-/

/-- Python float values reachable in `_calculate_stats`: finite rationals
plus the `float('inf')` sentinel used to seed the running minima. -/
inductive PyFloat where
  | fin : ℚ → PyFloat
  | inf : PyFloat
deriving DecidableEq, Repr

/-- Python `min(m, q)` where `m` may be the `inf` sentinel and `q` is finite:
`min(inf, q) = q`, otherwise the ordinary minimum. -/
def PyFloat.minq : PyFloat → ℚ → PyFloat
  | .inf, q => .fin q
  | .fin p, q => .fin (min p q)

/-- One connection outcome dict, as built by `SSHstress._sftp` /
`SSHstress._ssh` (src/ssh_stress.py lines 198-204, 210-216, 246-252,
258-264).  `ok id auth_time conn_time results` is the
`success: True` shape; `fail id results` is the `success: False` shape
(whose `auth_time`/`conn_time` are `None` and whose `results` is the
error string). -/
inductive ConnData where
  | ok (id : Nat) (auth_time conn_time : ℚ) (results : String)
  | fail (id : Nat) (results : String)
deriving DecidableEq, Repr

/-- The `id` field of an outcome dict. -/
def ConnData.id : ConnData → Nat
  | .ok i _ _ _ => i
  | .fail i _ => i

/-- The `success` field of an outcome dict. -/
def ConnData.success : ConnData → Bool
  | .ok _ _ _ _ => true
  | .fail _ _ => false

/-- The `results` field of an outcome dict. -/
def ConnData.results : ConnData → String
  | .ok _ _ _ r => r
  | .fail _ r => r

/-- The running accumulator of the per-round loop of
`SSHstress._calculate_stats` (src/ssh_stress.py lines 124-146): totals,
maxima (seeded with `0`), minima (seeded with `float('inf')`), and the
failure count. -/
structure StatAcc where
  total_auth_time : ℚ
  total_conn_time : ℚ
  max_auth_time : ℚ
  max_conn_time : ℚ
  min_auth_time : PyFloat
  min_conn_time : PyFloat
  total_failed : Nat
deriving DecidableEq, Repr

/-- Initial accumulator values of the per-round loop
(src/ssh_stress.py lines 124-131). -/
def initAcc : StatAcc := ⟨0, 0, 0, 0, .inf, .inf, 0⟩

/-- One iteration of `for data in round_data.values()`
(src/ssh_stress.py lines 133-146): on `success` accumulate the auth/conn
times into the totals, maxima and minima; otherwise increment
`total_failed`. -/
def statsStep (acc : StatAcc) (d : ConnData) : StatAcc :=
  match d with
  | .ok _ auth_time conn_time _ =>
      ⟨acc.total_auth_time + auth_time,
       acc.total_conn_time + conn_time,
       max acc.max_auth_time auth_time,
       max acc.max_conn_time conn_time,
       acc.min_auth_time.minq auth_time,
       acc.min_conn_time.minq conn_time,
       acc.total_failed⟩
  | .fail _ _ =>
      ⟨acc.total_auth_time, acc.total_conn_time,
       acc.max_auth_time, acc.max_conn_time,
       acc.min_auth_time, acc.min_conn_time,
       acc.total_failed + 1⟩

/-- The per-round stats dict built at src/ssh_stress.py lines 155-164.
`conn_data` is the back-reference to the round's own outcome mapping. -/
structure RoundStats where
  avg_auth_time : ℚ
  avg_conn_time : ℚ
  max_auth_time : ℚ
  max_conn_time : ℚ
  min_auth_time : PyFloat
  min_conn_time : PyFloat
  failed_conns : Nat
  conn_data : List (Nat × ConnData)
deriving DecidableEq, Repr

/-- The body of the `for round_name, round_data in perf_times.items()` loop
of `SSHstress._calculate_stats` (src/ssh_stress.py lines 123-164) for one
round: fold the accumulator over the outcomes, then compute the averages.
The source computes the averages inside `try`/`except ZeroDivisionError`
(lines 147-153), where the division raises exactly when
`total_conns - total_failed == 0`; that handler is embedded as the
explicit zero test below. -/
def roundStats (round_data : List (Nat × ConnData)) : RoundStats :=
  let acc := round_data.foldl (fun a p => statsStep a p.2) initAcc
  let total_conns := round_data.length
  let succ := total_conns - acc.total_failed
  let avg_auth_time : ℚ := if succ = 0 then 0 else acc.total_auth_time / (succ : ℚ)
  let avg_conn_time : ℚ := if succ = 0 then 0 else acc.total_conn_time / (succ : ℚ)
  ⟨avg_auth_time, avg_conn_time,
   acc.max_auth_time, acc.max_conn_time,
   acc.min_auth_time, acc.min_conn_time,
   acc.total_failed, round_data⟩

/-- The top-level stats dict returned by `SSHstress._calculate_stats`
(src/ssh_stress.py lines 112-120, 165, 170). -/
structure RunReport where
  stress_type : String
  rounds : Nat
  conns_per_round : Nat
  total_conns : Nat
  conns_per_sec : ℚ
  conn_wait : ℚ
  global_wait : ℚ
  round_data : List (String × RoundStats)
deriving DecidableEq, Repr

/-- `SSHstress._calculate_stats` (src/ssh_stress.py lines 111-170):
builds the fixed header fields and one `RoundStats` per round of
`perf_times`.  The optional `gen_graph` call (line 167-168) is pure
rendering of the already-computed `stats` value, excluded from the core
by the spec, and is omitted. -/
def calculate_stats (perf_times : List (String × List (Nat × ConnData)))
    (conns rounds : Nat) (conns_per_sec conn_wait global_wait : ℚ)
    (stress_type : String) : RunReport :=
  { stress_type := stress_type
    rounds := rounds
    conns_per_round := conns
    total_conns := conns * rounds
    conns_per_sec := conns_per_sec
    conn_wait := conn_wait
    global_wait := global_wait
    round_data := perf_times.map (fun p => (p.1, roundStats p.2)) }

/-- Folding `statsStep` over a round in which every outcome has
`success = False` leaves every accumulator field unchanged except
`total_failed`, which grows by the number of outcomes. -/
lemma foldl_statsStep_allFail (round_data : List (Nat × ConnData)) (acc : StatAcc)
    (h : ∀ p ∈ round_data, p.2.success = false) :
    round_data.foldl (fun a p => statsStep a p.2) acc =
      ⟨acc.total_auth_time, acc.total_conn_time,
       acc.max_auth_time, acc.max_conn_time,
       acc.min_auth_time, acc.min_conn_time,
       acc.total_failed + round_data.length⟩ := by
  induction round_data generalizing acc with
  | nil => simp
  | cons p rest ih =>
      have hp : p.2.success = false := h p (List.mem_cons_self p rest)
      have hstep : statsStep acc p.2 =
          ⟨acc.total_auth_time, acc.total_conn_time,
           acc.max_auth_time, acc.max_conn_time,
           acc.min_auth_time, acc.min_conn_time,
           acc.total_failed + 1⟩ := by
        cases hd : p.2 with
        | ok i a c r => rw [hd] at hp; simp [ConnData.success] at hp
        | fail i r => simp [statsStep]
      rw [List.foldl_cons, hstep,
        ih _ (fun q hq => h q (List.mem_cons_of_mem p hq))]
      simp [Nat.add_assoc, Nat.add_comm 1 rest.length]

/-- `foldl_statsStep_allFail` specialised to the initial accumulator:
an all-failure round leaves the totals at 0, the maxima at 0 and the
minima at the `inf` seed, and counts every outcome as failed. -/
lemma foldl_statsStep_allFail_init (round_data : List (Nat × ConnData))
    (h : ∀ p ∈ round_data, p.2.success = false) :
    round_data.foldl (fun a p => statsStep a p.2) initAcc =
      ⟨0, 0, 0, 0, .inf, .inf, round_data.length⟩ := by
  have h2 := foldl_statsStep_allFail round_data initAcc h
  simp only [initAcc] at h2
  simpa using h2

/-- The `conn_data` field of a round's stats is exactly the round's own
outcome mapping (src/ssh_stress.py line 163). -/
lemma roundStats_conn_data (round_data : List (Nat × ConnData)) :
    (roundStats round_data).conn_data = round_data := rfl

/-- C1: for every round in which zero outcomes are successful,
`_calculate_stats` produces for that round `avg_auth_time = 0` and
`avg_conn_time = 0` (the `ZeroDivisionError` handler path, embedded as
the explicit zero test) and `failed_conns` equal to the number of
outcomes of the round; the embedding is a total function, so no
exception escapes. -/
theorem calculate_stats_allFail_avg_zero
    (perf_times : List (String × List (Nat × ConnData)))
    (conns rounds : Nat) (cps cw gw : ℚ) (st : String)
    (name : String) (round_data : List (Nat × ConnData))
    (hmem : (name, round_data) ∈ perf_times)
    (hfail : ∀ p ∈ round_data, p.2.success = false) :
    (name, roundStats round_data) ∈
        (calculate_stats perf_times conns rounds cps cw gw st).round_data ∧
    (roundStats round_data).avg_auth_time = 0 ∧
    (roundStats round_data).avg_conn_time = 0 ∧
    (roundStats round_data).failed_conns = round_data.length := by
  have hacc := foldl_statsStep_allFail_init round_data hfail
  refine ⟨?_, ?_, ?_, ?_⟩
  · simp only [calculate_stats, List.mem_map]
    exact ⟨(name, round_data), hmem, rfl⟩
  all_goals simp [roundStats, hacc]

/-- Witness for C1: a one-outcome round whose single attempt failed. -/
theorem calculate_stats_allFail_avg_zero_witness :
    (roundStats [(1, ConnData.fail 1 "boom")]).avg_auth_time = 0 ∧
    (roundStats [(1, ConnData.fail 1 "boom")]).failed_conns = 1 := by
  have h := calculate_stats_allFail_avg_zero
      [("round_1", [(1, ConnData.fail 1 "boom")])] 1 1 100 0 0 "SFTP"
      "round_1" [(1, ConnData.fail 1 "boom")]
      (List.mem_singleton.mpr rfl)
      (by
        intro p hp
        have hq := List.mem_singleton.mp hp
        subst hq
        rfl)
  exact ⟨h.2.1, h.2.2.2⟩

/-- C2: for every round with zero successful outcomes, the computed
per-round stats keep the `float('inf')` seed as `min_auth_time` and
`min_conn_time` (not coerced to 0) and keep the `0` seed as
`max_auth_time` and `max_conn_time`. -/
theorem calculate_stats_allFail_min_inf
    (perf_times : List (String × List (Nat × ConnData)))
    (conns rounds : Nat) (cps cw gw : ℚ) (st : String)
    (name : String) (round_data : List (Nat × ConnData))
    (hmem : (name, round_data) ∈ perf_times)
    (hfail : ∀ p ∈ round_data, p.2.success = false) :
    (name, roundStats round_data) ∈
        (calculate_stats perf_times conns rounds cps cw gw st).round_data ∧
    (roundStats round_data).min_auth_time = PyFloat.inf ∧
    (roundStats round_data).min_conn_time = PyFloat.inf ∧
    (roundStats round_data).max_auth_time = 0 ∧
    (roundStats round_data).max_conn_time = 0 := by
  have hacc := foldl_statsStep_allFail_init round_data hfail
  refine ⟨?_, ?_, ?_, ?_, ?_⟩
  · simp only [calculate_stats, List.mem_map]
    exact ⟨(name, round_data), hmem, rfl⟩
  all_goals simp [roundStats, hacc]

/-- Witness for C2: a two-outcome round, both attempts failed. -/
theorem calculate_stats_allFail_min_inf_witness :
    (roundStats [(1, ConnData.fail 1 "refused"), (2, ConnData.fail 2 "reset")]).min_auth_time
      = PyFloat.inf ∧
    (roundStats [(1, ConnData.fail 1 "refused"), (2, ConnData.fail 2 "reset")]).max_auth_time
      = 0 := by
  have h := calculate_stats_allFail_min_inf
      [("round_1", [(1, ConnData.fail 1 "refused"), (2, ConnData.fail 2 "reset")])]
      2 1 100 0 0 "SFTP"
      "round_1" [(1, ConnData.fail 1 "refused"), (2, ConnData.fail 2 "reset")]
      (List.mem_singleton.mpr rfl)
      (by
        intro p hp
        rcases List.mem_cons.mp hp with h1 | h2
        · subst h1; rfl
        · have hq := List.mem_singleton.mp h2; subst hq; rfl)
  exact ⟨h.2.1, h.2.2.2.1⟩

/-- The round of testable property C7: outcome 3 failed, outcomes 1, 2, 4
successful with auth times 1/10, 2/10, 3/10 seconds. -/
def c7round : List (Nat × ConnData) :=
  [(1, ConnData.ok 1 (1/10) (1/2) "listing"),
   (2, ConnData.ok 2 (2/10) (1/2) "listing"),
   (3, ConnData.fail 3 "connection refused"),
   (4, ConnData.ok 4 (3/10) (1/2) "listing")]

/-- C7: on the round where outcome 3 is failed and outcomes 1, 2, 4 are
successful with auth times 0.1, 0.2, 0.3 seconds, `_calculate_stats`
yields `avg_auth_time = 0.2` and `failed_conns = 1` (durations are
modelled as exact rationals: 0.2 = 1/5). -/
theorem calculate_stats_mixed_example :
    (calculate_stats [("round_1", c7round)] 4 1 100 0 0 "SFTP").round_data =
      [("round_1", roundStats c7round)] ∧
    (roundStats c7round).avg_auth_time = 1/5 ∧
    (roundStats c7round).failed_conns = 1 := by
  refine ⟨by simp [calculate_stats], ?_, ?_⟩
  · simp only [roundStats, c7round, List.foldl, statsStep, initAcc]
    norm_num
  · simp only [roundStats, c7round, List.foldl, statsStep, initAcc]

/-- C9: `_calculate_stats` is deterministic and does not mutate its
input.  The source loop performs only reads of `perf_times` and of the
per-connection dicts, so the embedding is a pure function; the theorem
states that equal inputs give equal reports, and that the report's
per-round `conn_data` back-references are exactly the input rounds'
outcome mappings, unmodified. -/
theorem calculate_stats_deterministic_pure
    (p q : List (String × List (Nat × ConnData)))
    (conns rounds : Nat) (cps cw gw : ℚ) (st : String)
    (hpq : p = q) :
    calculate_stats p conns rounds cps cw gw st =
      calculate_stats q conns rounds cps cw gw st ∧
    (calculate_stats p conns rounds cps cw gw st).round_data.map
        (fun e => e.2.conn_data) = p.map Prod.snd := by
  subst hpq
  refine ⟨rfl, ?_⟩
  simp [calculate_stats, List.map_map, roundStats_conn_data, Function.comp]

/-- Witness for C9: two syntactically identical inputs. -/
theorem calculate_stats_deterministic_pure_witness :
    calculate_stats [("round_1", c7round)] 4 1 100 0 0 "SFTP" =
      calculate_stats [("round_1", c7round)] 4 1 100 0 0 "SFTP" ∧
    (calculate_stats [("round_1", c7round)] 4 1 100 0 0 "SFTP").round_data.map
        (fun e => e.2.conn_data) = [("round_1", c7round)].map Prod.snd :=
  calculate_stats_deterministic_pure
    [("round_1", c7round)] [("round_1", c7round)] 4 1 100 0 0 "SFTP" rfl

/-!
The scheduler loop `SSHstress._hammer` (src/ssh_stress.py lines 270-296).

The loop state is: `count` (attempts launched so far), `tasks` (the set of
launched-but-not-yet-reaped tasks, identified by their launch id — asyncio
keeps a completed task in the `tasks` set until `asyncio.wait` hands it
back, so the set of *outstanding* (launched, not completed) attempts is
always a subset of `tasks`), `perf` (the key set of the `perf_times`
result dict: each reaped task is stored under `results['id']`, which is
the task's launch count — both `_sftp` and `_ssh` return a dict whose
`id` field is the `count` argument on every path), `ucursor` (the
position of the instance-level `cycle(target_users)` iterator created
once in `__init__`, src/ssh_stress.py line 103, and never reset between
rounds), and `launches` (the launch-ordered list of (id, username)
pairs).

One outer iteration of the source loop is one reap of a nonempty
completed subset (line 282: `asyncio.wait(..., FIRST_COMPLETED)` followed
by moving each done task's result into `perf_times`) followed by the
inner launch loop (lines 287-295), which launches while
`count < conns and len(tasks) < max_concurrent_tasks`.  The step
relation below over-approximates this scheduling: it allows the atomic
actions — launch one task (guarded exactly by the inner loop's guard)
and reap one task — in any order, so every execution of the source loop
is a path of the relation, and every safety invariant proved over the
relation holds of the source loop.
-/

/-- State of the `_hammer` loop plus the instance-level username cursor. -/
structure HState where
  count : Nat
  tasks : Finset Nat
  perf : Finset Nat
  ucursor : Nat
  launches : List (Nat × String)
deriving DecidableEq

/-- `next(self.user)` for `self.user = cycle(target_users)`
(src/ssh_stress.py line 103): the `k`-th call (counting from 0 over the
whole instance lifetime) yields `target_users[k % len(target_users)]`. -/
def nextUser (users : List String) (k : Nat) : String :=
  users.getD (k % users.length) "root"

/-- The loop state at the top of `_hammer` (src/ssh_stress.py lines
277-279): `count = 0`, no tasks, empty `perf_times`; the username cursor
starts wherever the instance-level iterator currently is. -/
def initH (u0 : Nat) : HState := ⟨0, ∅, ∅, u0, []⟩

/-- Atomic actions of the `_hammer` loop.  `launch` is one iteration of
the inner `while count < conns and len(tasks) < self.max_concurrent_tasks`
loop (src/ssh_stress.py lines 287-295): increment `count`, create the
task for id `count`, pull the next username from the cycle.  `reap` moves
one completed task's result into `perf_times` keyed by its id
(lines 281-285). -/
inductive HStep (conns maxc : Nat) (users : List String) : HState → HState → Prop
  | launch {s : HState} (h1 : s.count < conns) (h2 : s.tasks.card < maxc) :
      HStep conns maxc users s
        ⟨s.count + 1, insert (s.count + 1) s.tasks, s.perf, s.ucursor + 1,
         s.launches ++ [(s.count + 1, nextUser users s.ucursor)]⟩
  | reap {s : HState} {t : Nat} (ht : t ∈ s.tasks) :
      HStep conns maxc users s
        ⟨s.count, s.tasks.erase t, insert t s.perf, s.ucursor, s.launches⟩

/-- States reachable by the `_hammer` loop from its initial state with
username cursor `u0`. -/
inductive HReach (conns maxc : Nat) (users : List String) (u0 : Nat) : HState → Prop
  | init : HReach conns maxc users u0 (initH u0)
  | step {s s' : HState} (hr : HReach conns maxc users u0 s)
      (hs : HStep conns maxc users s s') : HReach conns maxc users u0 s'

/-- Exit condition of the outer `while count < conns or tasks` loop
(src/ssh_stress.py line 280). -/
def HFinal (conns : Nat) (s : HState) : Prop :=
  ¬(s.count < conns ∨ s.tasks ≠ ∅)

instance (conns : Nat) (s : HState) : Decidable (HFinal conns s) := by
  unfold HFinal; infer_instance

/-- Inductive invariant of the `_hammer` loop: launches never pass
`conns`; at most `maxc` tasks are launched-but-not-reaped; the launched
ids are exactly `1..count`, split between the task set and the reaped
result keys; the username cursor has advanced once per launch; launch
order is the contiguous ascending sequence `1..count`; and the launch
with id `i` received the username at cycle position `u0 + (i - 1)`. -/
def HInv (conns maxc : Nat) (users : List String) (u0 : Nat) (s : HState) : Prop :=
  s.count ≤ conns ∧
  s.tasks.card ≤ maxc ∧
  s.tasks ∪ s.perf = Finset.Icc 1 s.count ∧
  Disjoint s.tasks s.perf ∧
  s.ucursor = u0 + s.count ∧
  s.launches.map Prod.fst = List.range' 1 s.count ∧
  ∀ p ∈ s.launches, p.2 = nextUser users (u0 + (p.1 - 1))

lemma HInv_init (conns maxc : Nat) (users : List String) (u0 : Nat) :
    HInv conns maxc users u0 (initH u0) := by
  refine ⟨Nat.zero_le _, by simp [initH], ?_, by simp [initH], by simp [initH],
    by simp [initH], by simp [initH]⟩
  simp only [initH, Finset.empty_union]
  rw [Finset.Icc_eq_empty (by omega)]

lemma HInv_step {conns maxc : Nat} {users : List String} {u0 : Nat} {s s' : HState}
    (hinv : HInv conns maxc users u0 s) (hstep : HStep conns maxc users s s') :
    HInv conns maxc users u0 s' := by
  obtain ⟨hc, hcard, huni, hdis, hcur, hids, husr⟩ := hinv
  cases hstep with
  | launch h1 h2 =>
      have hfresh : s.count + 1 ∉ s.tasks ∪ s.perf := by
        rw [huni]; simp only [Finset.mem_Icc]; omega
      have hft : s.count + 1 ∉ s.tasks := fun h => hfresh (Finset.mem_union_left _ h)
      have hfp : s.count + 1 ∉ s.perf := fun h => hfresh (Finset.mem_union_right _ h)
      refine ⟨h1, ?_, ?_, ?_, ?_, ?_, ?_⟩
      · rw [Finset.card_insert_of_not_mem hft]; omega
      · rw [Finset.insert_union, huni]
        exact Nat.Icc_insert_succ_right (by omega)
      · exact Finset.disjoint_insert_left.mpr ⟨hfp, hdis⟩
      · simp only [hcur]; omega
      · rw [List.map_append, hids]
        simp [List.range'_concat]
        omega
      · intro p hp
        rcases List.mem_append.mp hp with hp1 | hp2
        · exact husr p hp1
        · have hq := List.mem_singleton.mp hp2
          subst hq
          simp only [hcur, Nat.add_sub_cancel]
  | @reap t ht =>
      refine ⟨hc, ?_, ?_, ?_, hcur, hids, husr⟩
      · exact le_trans Finset.card_erase_le hcard
      · rw [← huni]
        ext x
        simp only [Finset.mem_union, Finset.mem_erase, Finset.mem_insert]
        constructor
        · rintro (⟨hxt, hx⟩ | hx | hx)
          · exact Or.inl hx
          · exact hx ▸ Or.inl ht
          · exact Or.inr hx
        · rintro (hx | hx)
          · by_cases hxt : x = t
            · exact Or.inr (Or.inl hxt)
            · exact Or.inl ⟨hxt, hx⟩
          · exact Or.inr (Or.inr hx)
      · exact Finset.disjoint_insert_right.mpr
          ⟨Finset.not_mem_erase _ _,
           Finset.disjoint_of_subset_left (Finset.erase_subset _ _) hdis⟩

/-- Every reachable state of the `_hammer` loop satisfies the invariant. -/
lemma HInv_reach {conns maxc : Nat} {users : List String} {u0 : Nat} {s : HState}
    (h : HReach conns maxc users u0 s) : HInv conns maxc users u0 s := by
  induction h with
  | init => exact HInv_init conns maxc users u0
  | step hr hs ih => exact HInv_step ih hs

/-- C3: at every step of the `_hammer` loop, for any `conns` and any
`max_concurrent_tasks`, the number of launched-but-not-reaped tasks —
an upper bound on the outstanding (launched, not completed) attempts,
since asyncio keeps completed tasks in the `tasks` set until reaped —
never exceeds `max_concurrent_tasks`. -/
theorem hammer_concurrency_bounded
    (conns maxc : Nat) (users : List String) (u0 : Nat) (s : HState)
    (h : HReach conns maxc users u0 s) :
    s.tasks.card ≤ maxc :=
  (HInv_reach h).2.1

/-- A state of the run `conns = 2`, `max_concurrent_tasks = 1` in which
one task is in flight: reached by launch 1, reap 1, launch 2. -/
def c3demoState : HState := ⟨2, {2}, {1}, 2, [(1, "root"), (2, "root")]⟩

lemma c3demo_reached : HReach 2 1 ["root"] 0 c3demoState := by
  have h0 := @HReach.init 2 1 ["root"] 0
  have h1 := HReach.step h0 (HStep.launch (by decide) (by decide))
  have h2 := HReach.step h1 (@HStep.reap 2 1 ["root"] _ 1 (by decide))
  have h3 := HReach.step h2 (HStep.launch (by decide) (by decide))
  exact h3

/-- Witness for C3: in the reached state `c3demoState` the task-set size
is exactly at the ceiling `max_concurrent_tasks = 1` and does not exceed
it. -/
theorem hammer_concurrency_bounded_witness : c3demoState.tasks.card ≤ 1 :=
  hammer_concurrency_bounded 2 1 ["root"] 0 c3demoState c3demo_reached

/-- C4: every completed round (the loop `while count < conns or tasks`
has exited) with `max_concurrent_tasks ≥ 1` has collected exactly
`conns` outcomes in `perf_times`, keyed precisely by the ids
`1..conns` with no duplicates, and the ids were assigned at launch in
monotonically increasing order (`launches` lists them as the contiguous
ascending sequence `1..conns`). -/
theorem hammer_complete_round
    (conns maxc : Nat) (users : List String) (u0 : Nat) (s : HState)
    (_hm : 1 ≤ maxc)
    (h : HReach conns maxc users u0 s) (hf : HFinal conns s) :
    s.perf = Finset.Icc 1 conns ∧ s.perf.card = conns ∧
    s.launches.map Prod.fst = List.range' 1 conns := by
  obtain ⟨hc, _, huni, _, _, hids, _⟩ := HInv_reach h
  unfold HFinal at hf
  push_neg at hf
  obtain ⟨hge, hemp⟩ := hf
  have hcount : s.count = conns := le_antisymm hc hge
  have hperf : s.perf = Finset.Icc 1 conns := by
    rw [← hcount, ← huni, hemp, Finset.empty_union]
  refine ⟨hperf, ?_, by rw [hids, hcount]⟩
  rw [hperf, Nat.card_Icc]
  omega

/-- The final state of a completed round `conns = 2`,
`max_concurrent_tasks = 1`: launch 1, reap 1, launch 2, reap 2. -/
def c4demoState : HState := ⟨2, ∅, {2, 1}, 2, [(1, "root"), (2, "root")]⟩

lemma c4demo_reached : HReach 2 1 ["root"] 0 c4demoState := by
  have h4 := HReach.step c3demo_reached (@HStep.reap 2 1 ["root"] _ 2 (by decide))
  exact h4

/-- Witness for C4: the completed demo round collected outcomes exactly
for ids {1, 2}, launched in the order [1, 2]. -/
theorem hammer_complete_round_witness :
    c4demoState.perf = Finset.Icc 1 2 ∧ c4demoState.perf.card = 2 ∧
    c4demoState.launches.map Prod.fst = List.range' 1 2 :=
  hammer_complete_round 2 1 ["root"] 0 c4demoState (by decide)
    c4demo_reached (by decide)

/-!
Multi-round runs.  `self.user = cycle(target_users)` is created once in
`SSHstress.__init__` (src/ssh_stress.py line 103) and `_hammer` pulls
`next(self.user)` at every launch (lines 290, 292), so the cursor of the
username cycle is instance-level state threaded from one round's final
state into the next round's initial state — it is never reset between
the sequential `asyncio.run(self._hammer(...))` calls of `stress_sftp` /
`stress_ssh` (lines 301-306, 313-318).
-/

/-- `RoundsDone conns maxc users k u` holds when `k` complete rounds of
`_hammer` have run on one `SSHstress` instance (each round drained:
reached a `HFinal` state) and the instance-level username cursor now
stands at `u`.  A fresh instance starts with cursor 0. -/
inductive RoundsDone (conns maxc : Nat) (users : List String) : Nat → Nat → Prop
  | zero : RoundsDone conns maxc users 0 0
  | succ {k u0 : Nat} {s : HState} (hprev : RoundsDone conns maxc users k u0)
      (hr : HReach conns maxc users u0 s) (hf : HFinal conns s) :
      RoundsDone conns maxc users (k + 1) s.ucursor

/-- After `k` completed rounds the username cursor stands at
`k * conns`: each completed round advances it by exactly `conns`. -/
lemma RoundsDone_cursor {conns maxc : Nat} {users : List String} {k u : Nat}
    (h : RoundsDone conns maxc users k u) : u = k * conns := by
  induction h with
  | zero => simp
  | succ hprev hr hf ih =>
      obtain ⟨hc, _, _, _, hcur, _, _⟩ := HInv_reach hr
      unfold HFinal at hf
      push_neg at hf
      have hcount := le_antisymm hc hf.1
      rw [hcur, hcount, ih]
      ring

/-- C10: the round-robin username rotation is instance-level state not
reset between rounds.  In round `k + 1` of a multi-round run (after `k`
completed rounds of `conns` attempts each), the attempt launched with
local id `i` has global launch index `j = k * conns + i`, and it is
assigned username `users[(j - 1) % len(users)]` — the rotation continues
from where the previous round left off instead of restarting. -/
theorem username_rotation_global
    (conns maxc : Nat) (users : List String) (k u0 : Nat) (s : HState)
    (hrounds : RoundsDone conns maxc users k u0)
    (hr : HReach conns maxc users u0 s)
    (p : Nat × String) (hp : p ∈ s.launches) :
    p.2 = users.getD ((k * conns + p.1 - 1) % users.length) "root" := by
  obtain ⟨_, _, _, _, _, hids, husr⟩ := HInv_reach hr
  have hu0 : u0 = k * conns := RoundsDone_cursor hrounds
  have hid1 : 1 ≤ p.1 := by
    have hmem : p.1 ∈ s.launches.map Prod.fst := List.mem_map_of_mem Prod.fst hp
    rw [hids] at hmem
    exact (List.mem_range'_1.mp hmem).1
  have harg : u0 + (p.1 - 1) = k * conns + p.1 - 1 := by omega
  rw [husr p hp, nextUser, harg]

/-- Round 1 of a run with `conns = 1`, `maxc = 1`,
`users = ["alice", "bob"]`, completed: launch id 1 (username "alice"),
reap it. -/
def c10round1Final : HState := ⟨1, ∅, {1}, 1, [(1, "alice")]⟩

lemma c10round1_reached : HReach 1 1 ["alice", "bob"] 0 c10round1Final := by
  have h0 := @HReach.init 1 1 ["alice", "bob"] 0
  have h1 := HReach.step h0 (HStep.launch (by decide) (by decide))
  have h2 := HReach.step h1 (@HStep.reap 1 1 ["alice", "bob"] _ 1 (by decide))
  exact h2

lemma c10one_round_done : RoundsDone 1 1 ["alice", "bob"] 1 1 :=
  RoundsDone.succ RoundsDone.zero c10round1_reached (by decide)

/-- Round 2, first launch: the cursor continues at 1, so id 1 of round 2
gets username "bob", not "alice". -/
def c10round2State : HState := ⟨1, {1}, ∅, 2, [(1, "bob")]⟩

lemma c10round2_reached : HReach 1 1 ["alice", "bob"] 1 c10round2State := by
  have h0 := @HReach.init 1 1 ["alice", "bob"] 1
  have h1 := HReach.step h0 (HStep.launch (by decide) (by decide))
  exact h1

/-- Witness for C10: in round 2 of the demo run the attempt with local
id 1 (global launch index j = 2) received username
`users[(2 - 1) % 2] = "bob"`. -/
theorem username_rotation_global_witness :
    (1, "bob").2 =
      ["alice", "bob"].getD ((1 * 1 + (1, "bob").1 - 1) % ["alice", "bob"].length) "root" :=
  username_rotation_global 1 1 ["alice", "bob"] 1 1 c10round2State
    c10one_round_done c10round2_reached (1, "bob") (by decide)

/-!
The global-deadline flag and the attempts' post-operation wait phase.

`drop_all_timer(n)` (src/ssh_stress.py lines 73-82) runs in a dedicated
thread started at the top of `_hammer` (lines 274-275): for `n == 0` it
clears the global `wait` flag immediately; for `n > 0` it sets `wait =
True`, sleeps `n` seconds, then sets `wait = False`.  So as a function
of the time `t` elapsed since round start, the flag reads `True` exactly
on `0 ≤ t < n`.

Each attempt, after its protocol operation, branches on the flag
(src/ssh_stress.py lines 191-195 in `_sftp`, 239-243 in `_ssh`):

    if wait:  while wait: await asyncio.sleep(0.1)   # poll until fired
    else:     await asyncio.sleep(conn_wait)         # per-connection wait

i.e. the behaviour depends on the flag value at the moment the attempt
reaches its wait phase.
-/

/-- The global `wait` flag written by `drop_all_timer(global_wait)`, read
at `t` seconds after the timer thread started. -/
def dropAllFlag (global_wait t : ℚ) : Bool :=
  if global_wait = 0 then false
  else if t < global_wait then true else false

/-- What an attempt does after its protocol operation:
`blockUntilFired` is the `while wait: await asyncio.sleep(0.1)` poll
loop; `sleep w` is `await asyncio.sleep(conn_wait)`. -/
inductive WaitBehavior where
  | blockUntilFired : WaitBehavior
  | sleep : ℚ → WaitBehavior
deriving DecidableEq, Repr

/-- The post-operation branch of `_sftp` / `_ssh`
(src/ssh_stress.py lines 191-195, 239-243), as a function of the flag
value the attempt observes when it reaches its wait phase. -/
def waitPhase (wait : Bool) (conn_wait : ℚ) : WaitBehavior :=
  if wait then .blockUntilFired else .sleep conn_wait

/-- Counterexample to C5: with `global_wait = 1 > 0`, an attempt that
reaches its wait phase at `t = 2` — after the deadline has fired —
observes the cleared flag and takes the `asyncio.sleep(conn_wait)`
branch with `conn_wait = 5`: the per-connection wait IS honored, so it
is false that the per-connection wait is never honored in a run with a
global wait, "regardless of when the attempt reaches its wait phase
relative to the deadline firing". -/
theorem globalWait_late_attempt_counterexample :
    (0 : ℚ) < 1 ∧ (1 : ℚ) ≤ 2 ∧
    waitPhase (dropAllFlag 1 2) 5 ≠ WaitBehavior.blockUntilFired ∧
    waitPhase (dropAllFlag 1 2) 5 = WaitBehavior.sleep 5 := by
  have hflag : dropAllFlag 1 2 = false := by
    rw [dropAllFlag, if_neg (by norm_num), if_neg (by norm_num)]
  refine ⟨by norm_num, by norm_num, ?_, ?_⟩ <;> rw [hflag, waitPhase] <;> simp

/-- C5 as amended: when `global_wait > 0`, an attempt reaching its wait
phase at `t < global_wait` (deadline armed, not yet fired) blocks until
the deadline fires and then closes, overriding `conn_wait`; but an
attempt reaching its wait phase at `t ≥ global_wait` (deadline already
fired) observes the cleared flag and honors the per-connection wait
`conn_wait`. -/
theorem globalWait_wait_phase_behavior
    (global_wait t conn_wait : ℚ) (hg : 0 < global_wait) :
    (t < global_wait →
      waitPhase (dropAllFlag global_wait t) conn_wait = WaitBehavior.blockUntilFired) ∧
    (global_wait ≤ t →
      waitPhase (dropAllFlag global_wait t) conn_wait = WaitBehavior.sleep conn_wait) := by
  constructor
  · intro ht
    rw [dropAllFlag, if_neg (ne_of_gt hg), if_pos ht]
    rfl
  · intro ht
    rw [dropAllFlag, if_neg (ne_of_gt hg), if_neg (not_lt.mpr ht)]
    rfl

/-- Witness for the amended C5: with `global_wait = 1`, an attempt at
`t = 0` blocks until the deadline fires, while an attempt at `t = 2`
sleeps the per-connection wait of 5 seconds. -/
theorem globalWait_wait_phase_behavior_witness :
    waitPhase (dropAllFlag 1 0) 5 = WaitBehavior.blockUntilFired ∧
    waitPhase (dropAllFlag 1 2) 5 = WaitBehavior.sleep 5 :=
  ⟨(globalWait_wait_phase_behavior 1 0 5 (by norm_num)).1 (by norm_num),
   (globalWait_wait_phase_behavior 1 2 5 (by norm_num)).2 (by norm_num)⟩

/-!
The connection attempts `_sftp` (src/ssh_stress.py lines 173-219) and
`_ssh` (lines 222-267).  Each wraps its whole body in
`try ... except (OSError, asyncssh.Error, asyncio.TimeoutError) as e` —
exactly the exception classes the suspension points raise
(`asyncssh.connect` raises `OSError` and `asyncssh.Error`; the SFTP /
SSH operation raises `asyncssh.Error`; `asyncio.wait_for` raises
`asyncio.TimeoutError`) — and converts the exception into the failure
outcome dict carrying `str(e)`.  The embedding supplies the outcome of
each suspension point as an environment value: a phase either returns
its result or raises an exception of one of the caught classes.
-/

/-- The exception classes named in the attempts' `except` clause, which
are the classes the wrapped library operations raise. -/
inductive ExcKind where
  | osError
  | sshError
  | timeoutError
deriving DecidableEq, Repr

/-- An exception instance: its class and its `str(e)` description. -/
structure Exc where
  kind : ExcKind
  msg : String
deriving DecidableEq, Repr

/-- Environment of one `_sftp` attempt: the outcome of
`asyncssh.connect` + authentication (returning the measured `auth_time`
on success), of `sftp.listdir` under `asyncio.wait_for` (returning the
listing), and of the post-operation wait/close phase; `total_time` is
the wall-clock total measured at close on the success path. -/
structure SftpEnv where
  connect : Except Exc ℚ
  listdir : Except Exc String
  waitPh : Except Exc Unit
  total_time : ℚ

/-- The `try` block of `_sftp` (src/ssh_stress.py lines 175-207): run
the phases in order, propagating the first exception; on full success
build the `success: True` outcome dict. -/
def sftpBody (count : Nat) (env : SftpEnv) : Except Exc ConnData :=
  match env.connect with
  | .error e => .error e
  | .ok auth_time =>
      match env.listdir with
      | .error e => .error e
      | .ok result =>
          match env.waitPh with
          | .error e => .error e
          | .ok _ => .ok (.ok count auth_time env.total_time result)

/-- `_sftp` (src/ssh_stress.py lines 173-219): the `try` body with the
`except (OSError, asyncssh.Error, asyncio.TimeoutError)` handler that
turns the exception into the `success: False` outcome dict carrying
`str(e)` (lines 209-219).  Total: every invocation returns an outcome
dict. -/
def sftp (count : Nat) (env : SftpEnv) : ConnData :=
  match sftpBody count env with
  | .ok c => c
  | .error e => .fail count e.msg

/-- Environment of one `_ssh` attempt: `asyncssh.connect` +
authentication, `conn.run('dir')` under `asyncio.wait_for`, and the
post-operation wait/close phase. -/
structure SshEnv where
  connect : Except Exc ℚ
  runCmd : Except Exc String
  waitPh : Except Exc Unit
  total_time : ℚ

/-- The `try` block of `_ssh` (src/ssh_stress.py lines 224-255). -/
def sshBody (count : Nat) (env : SshEnv) : Except Exc ConnData :=
  match env.connect with
  | .error e => .error e
  | .ok auth_time =>
      match env.runCmd with
      | .error e => .error e
      | .ok result =>
          match env.waitPh with
          | .error e => .error e
          | .ok _ => .ok (.ok count auth_time env.total_time result)

/-- `_ssh` (src/ssh_stress.py lines 222-267): `try` body plus the
exception handler (lines 257-267). -/
def ssh (count : Nat) (env : SshEnv) : ConnData :=
  match sshBody count env with
  | .ok c => c
  | .error e => .fail count e.msg

/-- C6: every failure raised in an attempt's connect/auth, operation or
wait phase is caught inside `_sftp` / `_ssh` and converted into the
failed outcome dict carrying the error's `str(e)` description; the
attempt functions are total (they return an outcome dict, bearing the
attempt's id, in every environment), so no exception propagates into
the scheduler loop — `task.result()` at src/ssh_stress.py line 284
never re-raises — and no sibling attempt is affected. -/
theorem attempt_failures_contained
    (count : Nat) (envF : SftpEnv) (envS : SshEnv) (e1 e2 : Exc) :
    (sftp count envF).id = count ∧
    (ssh count envS).id = count ∧
    (sftpBody count envF = .error e1 →
      sftp count envF = ConnData.fail count e1.msg) ∧
    (sshBody count envS = .error e2 →
      ssh count envS = ConnData.fail count e2.msg) := by
  refine ⟨?_, ?_, ?_, ?_⟩
  · rcases envF with ⟨c, l, w, tt⟩
    cases c <;> cases l <;> cases w <;> rfl
  · rcases envS with ⟨c, r, w, tt⟩
    cases c <;> cases r <;> cases w <;> rfl
  · intro h
    simp [sftp, h]
  · intro h
    simp [ssh, h]

/-- Witness for C6: an `_sftp` attempt whose connect phase raises an
`OSError` and an `_ssh` attempt whose operation phase times out both
return the failure dict with the exception's message. -/
theorem attempt_failures_contained_witness :
    sftp 7 ⟨.error ⟨.osError, "Connection refused"⟩, .ok "listing", .ok (), 1⟩ =
      ConnData.fail 7 "Connection refused" ∧
    ssh 9 ⟨.ok 1, .error ⟨.timeoutError, "timed out"⟩, .ok (), 2⟩ =
      ConnData.fail 9 "timed out" :=
  ⟨(attempt_failures_contained 7
      ⟨.error ⟨.osError, "Connection refused"⟩, .ok "listing", .ok (), 1⟩
      ⟨.ok 1, .error ⟨.timeoutError, "timed out"⟩, .ok (), 2⟩
      ⟨.osError, "Connection refused"⟩ ⟨.timeoutError, "timed out"⟩).2.2.1 rfl,
   (attempt_failures_contained 9
      ⟨.error ⟨.osError, "Connection refused"⟩, .ok "listing", .ok (), 1⟩
      ⟨.ok 1, .error ⟨.timeoutError, "timed out"⟩, .ok (), 2⟩
      ⟨.osError, "Connection refused"⟩ ⟨.timeoutError, "timed out"⟩).2.2.2 rfl⟩

/-!
The round runners `stress_sftp` (src/ssh_stress.py lines 299-308) and
`stress_ssh` (lines 311-320).  Each runs
`asyncio.run(self._hammer(...))` once per round in a plain
`for stress_round in range(rounds)` loop — unconditionally, with no
break, retry or raise on failed outcomes — re-orders the round's
outcome dict by ascending id (`{k: times[k] for k in sorted(times)}`,
lines 305/317), stores it under the key `f"round_{stress_round}"`, and
finally hands all rounds to `_calculate_stats`.  The nondeterministic
per-round result of the scheduler is supplied as an oracle
`times : Nat → List (Nat × ConnData)` mapping the 1-based round number
to that round's raw (completion-ordered) outcome list; quantifying over
all oracles covers rounds with any mixture of failures, including
all-failure rounds.
-/

/-- `{k: times[k] for k in sorted(times)}` (src/ssh_stress.py lines
305, 317): rebuild the outcome mapping in ascending key order. -/
def sortById (times : List (Nat × ConnData)) : List (Nat × ConnData) :=
  times.mergeSort (fun a b => a.1 ≤ b.1)

/-- The `for stress_round in range(rounds)` loop common to `stress_sftp`
and `stress_ssh` (src/ssh_stress.py lines 301-306, 313-318): one entry
`("round_<r>", sorted outcomes of round r)` per round, in round order. -/
def stress_rounds (times : Nat → List (Nat × ConnData)) (rounds : Nat) :
    List (String × List (Nat × ConnData)) :=
  (List.range rounds).map
    (fun k => (String.append "round_" (toString (k + 1)), sortById (times (k + 1))))

/-- `SSHstress.stress_sftp` (src/ssh_stress.py lines 299-308): run the
rounds, then aggregate with `_calculate_stats` under the "SFTP" tag. -/
def stress_sftp (times : Nat → List (Nat × ConnData)) (conns : Nat)
    (conn_wait global_wait conns_per_sec : ℚ) (rounds : Nat) : RunReport :=
  calculate_stats (stress_rounds times rounds) conns rounds
    conns_per_sec conn_wait global_wait "SFTP"

/-- `SSHstress.stress_ssh` (src/ssh_stress.py lines 311-320): same loop
under the "SSH" tag. -/
def stress_ssh (times : Nat → List (Nat × ConnData)) (conns : Nat)
    (conn_wait global_wait conns_per_sec : ℚ) (rounds : Nat) : RunReport :=
  calculate_stats (stress_rounds times rounds) conns rounds
    conns_per_sec conn_wait global_wait "SSH"

/-- C8: for every `rounds ≥ 1` and every oracle of per-round scheduler
results (failures included — even all-failure rounds), `stress_sftp` /
`stress_ssh` aggregate exactly `rounds` sequential scheduler results
named `round_1 .. round_<rounds>` in order, each re-ordered by
ascending id before aggregation (`roundStats` is applied to
`sortById` of the round's raw outcomes, which is an ascending-by-id
permutation of them); no round aborts the loop or the aggregation. -/
theorem round_runner_rounds
    (timesF timesS : Nat → List (Nat × ConnData)) (conns : Nat)
    (cw gw cps : ℚ) (rounds : Nat) (_hr : 1 ≤ rounds) :
    (stress_sftp timesF conns cw gw cps rounds).round_data =
      (List.range rounds).map
        (fun k => (String.append "round_" (toString (k + 1)),
                   roundStats (sortById (timesF (k + 1))))) ∧
    (stress_sftp timesF conns cw gw cps rounds).round_data.length = rounds ∧
    (stress_ssh timesS conns cw gw cps rounds).round_data =
      (List.range rounds).map
        (fun k => (String.append "round_" (toString (k + 1)),
                   roundStats (sortById (timesS (k + 1))))) ∧
    ∀ l : List (Nat × ConnData),
      List.Pairwise (fun a b => a.1 ≤ b.1) (sortById l) ∧ (sortById l).Perm l := by
  refine ⟨?_, ?_, ?_, ?_⟩
  · simp [stress_sftp, calculate_stats, stress_rounds, List.map_map, Function.comp]
  · simp [stress_sftp, calculate_stats, stress_rounds]
  · simp [stress_ssh, calculate_stats, stress_rounds, List.map_map, Function.comp]
  · intro l
    constructor
    · have htrans : ∀ a b c : Nat × ConnData,
          (decide (a.1 ≤ b.1)) = true → (decide (b.1 ≤ c.1)) = true →
          (decide (a.1 ≤ c.1)) = true := by
        intro a b c hab hbc
        simp only [decide_eq_true_eq] at hab hbc ⊢
        omega
      have htotal : ∀ a b : Nat × ConnData,
          ((decide (a.1 ≤ b.1)) || (decide (b.1 ≤ a.1))) = true := by
        intro a b
        simp only [Bool.or_eq_true, decide_eq_true_eq]
        omega
      have h := @List.sorted_mergeSort (Nat × ConnData)
        (fun a b => decide (a.1 ≤ b.1)) htrans htotal l
      refine List.Pairwise.imp ?_ h
      intro a b hab
      simpa using hab
    · exact List.mergeSort_perm l _

/-- The raw per-round scheduler result used in the C8 witness: outcome 2
(a failure) completed before outcome 1 (a success), so the raw list is
out of order and contains a failure. -/
def demoTimes : Nat → List (Nat × ConnData) :=
  fun _ => [(2, ConnData.fail 2 "Connection reset"), (1, ConnData.ok 1 1 2 "listing")]

/-- Witness for C8: a two-round run over the demo oracle yields exactly
two per-round entries, named in order. -/
theorem round_runner_rounds_witness :
    (stress_sftp demoTimes 2 0 0 100 2).round_data.length = 2 ∧
    (stress_ssh demoTimes 2 0 0 100 2).round_data =
      (List.range 2).map
        (fun k => (String.append "round_" (toString (k + 1)),
                   roundStats (sortById (demoTimes (k + 1))))) :=
  ⟨(round_runner_rounds demoTimes demoTimes 2 0 0 100 2 (by decide)).2.1,
   (round_runner_rounds demoTimes demoTimes 2 0 0 100 2 (by decide)).2.2.1⟩
